import Mathlib

/-!
Verification of the nina-tracker cycle/similarity/projection engine
(`src/streamlit_app.py`) against its design document.

Timestamps are modelled as absolute minutes on the local wall clock of the
configured timezone `America/Sao_Paulo` (an `Int`; day `d` spans minutes
`[d * 1440, (d+1) * 1440)`).  Since Brazil abolished daylight saving in 2019,
the zone has the fixed offset UTC-03:00 for every date the app processes, so
UTC wall-clock minutes are `local + 180` and this linear model is exact.
Durations and the elapsed-minutes cutoff are rationals (pandas floats).
-/

namespace NinaTracker

/-- UTC = America/Sao_Paulo local time + 180 minutes (fixed -03:00 offset). -/
def utcOffsetMinutes : Int := 180

/-- Calendar date (day number) of a local timestamp: what
`.dt.normalize().dt.tz_localize(None).dt.date` yields (line 40). -/
def localDay (t : Int) : Int := t.fdiv 1440

/-- Hour-of-day of a local timestamp read on the local clock. -/
def localHour (t : Int) : Int := (t.emod 1440).fdiv 60

/-- Hour-of-day produced by `.dt.tz_convert(None).dt.hour` (line 43):
`tz_convert(None)` converts the tz-aware value to UTC and drops the zone,
so this is the UTC hour, not the local hour. -/
def utcHour (t : Int) : Int := ((t + utcOffsetMinutes).emod 1440).fdiv 60

/-- The `cycle_date` computed by `load_and_preprocess_data` (lines 40-48):
start from the local calendar date, then subtract one day when the hour of
`time_started.dt.tz_convert(None)` — i.e. the UTC hour — is below 6. -/
def cycle_date_code (t : Int) : Int :=
  if utcHour t < 6 then localDay t - 1 else localDay t

/-- Modelled from the spec (§4.2 CycleAssigner): `assign_cycle(start,
boundary_hour)` uses the local hour of the start instant: the cycle date is
the local calendar date, minus one day when `start.hour < boundary_hour`. -/
def assign_cycle (t : Int) (boundary_hour : Int) : Int :=
  if localHour t < boundary_hour then localDay t - 1 else localDay t

/-- Raw start/end field of one CSV row, as seen by
`pd.to_datetime(...).dt.tz_localize(tz, nonexistent='NaT', ambiguous='NaT')`:
either a parseable local wall-clock instant, a parseable instant falling on a
DST-ambiguous or nonexistent local time (localized to `NaT`), or a value
`pd.to_datetime` cannot parse at all (it raises). -/
inductive RawTime where
  | valid (t : Int)
  | dstAmbiguous
  | unparseable
deriving DecidableEq

/-- True when `pd.to_datetime` accepts the value (it only raises on
genuinely unparseable input; DST problems surface later, in `tz_localize`). -/
def RawTime.parseable : RawTime → Bool
  | .unparseable => false
  | _ => true

/-- Result of `tz_localize(..., nonexistent='NaT', ambiguous='NaT')` on a
parsed value: `none` models `NaT`. -/
def RawTime.localize : RawTime → Option Int
  | .valid t => some t
  | _ => none

/-- One CSV row after `read_csv` and column renaming: the fields the engine
reads.  `duration_minutes` is `none` when the cell is missing or not numeric
(`pd.to_numeric(..., errors='coerce')` turns it into `NaN`); `categories` is
`none` when the cell is empty. -/
structure RawRecord where
  time_started : RawTime
  time_ended : RawTime
  categories : Option String
  duration_minutes : Option Rat
deriving DecidableEq

/-- One processed row of the dataframe returned by
`load_and_preprocess_data`.  `none` timestamps model `NaT`; `cycle_date` is
`none` when `time_started` is `NaT`. -/
structure Event where
  time_started : Option Int
  time_ended : Option Int
  categories : String
  duration_minutes : Rat
  cycle_date : Option Int
deriving DecidableEq

/-- The processed row a single raw record contributes (lines 32-48): `NaT`
localization on the timestamps, `fillna(0)` on the duration, rows whose
`categories` is `NaN` dropped (line 37), and `cycle_date` derived from
`time_started` (`NaT` start propagates to a `NaT` cycle date, because
`NaT.hour < 6` is false and normalizing `NaT` yields `NaT`). -/
def processRow (r : RawRecord) : Option Event :=
  match r.categories with
  | none => none
  | some c =>
      let s := r.time_started.localize
      some { time_started := s
             time_ended := r.time_ended.localize
             categories := c
             duration_minutes := r.duration_minutes.getD 0
             cycle_date := s.map cycle_date_code }

/-- Lines 29-50 of `load_and_preprocess_data`, applied to the rows
`read_csv` delivered.  The surrounding `try` only covers `read_csv` itself
(lines 23-27), so when any row's `time_started` or `time_ended` cannot be
parsed, `pd.to_datetime` (default `errors='raise'`, lines 32-33) raises out
of the function and the whole batch is lost; this is the `.error` branch. -/
def load_and_preprocess_data (rows : List RawRecord) : Except String (List Event) :=
  if rows.all (fun r => r.time_started.parseable && r.time_ended.parseable) then
    Except.ok (rows.filterMap processRow)
  else
    Except.error "MalformedTimestamp"

/-- Total of the `duration_minutes` column of a filtered dataframe
(`['duration_minutes'].sum()`). -/
def sum_duration (l : List Event) : Rat := (l.map Event.duration_minutes).sum

/-- The group keys of `groupby('cycle_date')`: the distinct non-null cycle
dates, in ascending order (pandas sorts group keys and drops `NaT`). -/
def cycleDates (evs : List Event) : List Int :=
  ((evs.filterMap Event.cycle_date).dedup).insertionSort (· ≤ ·)

/-- Absolute local minute at which the cycle of a given date begins:
`pd.Timestamp(cycle_date).tz_localize(tz) + pd.Timedelta(hours=6)`
(line 189 / line 243). -/
def cycle_start (cycle_date : Int) : Int := cycle_date * 1440 + 360

/-- Lines 182-204: for every historical cycle, the cumulative
`duration_minutes` of the key category over the activities that ended before
`cycle_start + time_passed_minutes_cutoff`.  A `NaT` end never satisfies the
comparison, exactly as in pandas. -/
def calculate_historical_value (df_hist : List Event) (key_category : String)
    (time_passed_minutes_cutoff : Rat) : List (Int × Rat) :=
  (cycleDates df_hist).map fun cycle_date =>
    let group := df_hist.filter (fun e => e.cycle_date == some cycle_date)
    let cutoff_time : Rat := ((cycle_start cycle_date : Int) : Rat) + time_passed_minutes_cutoff
    let df_filtered := group.filter (fun e =>
      match e.time_ended with
      | some te => decide ((te : Rat) < cutoff_time)
      | none => false)
    (cycle_date, sum_duration (df_filtered.filter (fun e => e.categories == key_category)))

/-- Modelled from the spec (§4.5): the per-cycle total is the sum of
`duration_minutes` over exactly the events of the key category, belonging to
the cycle, whose end instant is strictly before
`cutoff_instant = cycle_start + cutoff_minutes_into_cycle`. -/
def spec_key_total (df_hist : List Event) (key_category : String) (cutoff : Rat)
    (cycle_date : Int) : Rat :=
  sum_duration (df_hist.filter (fun e =>
    e.cycle_date == some cycle_date && e.categories == key_category &&
      (match e.time_ended with
       | some te => decide ((te : Rat) < ((cycle_start cycle_date : Int) : Rat) + cutoff)
       | none => false)))

/-- The successive filters of `calculate_historical_value` amount to one
conjunctive filter: its rows are exactly `(d, spec_key_total d)` for the
cycle dates `d` of the history. -/
theorem calculate_historical_value_eq (df_hist : List Event) (key : String) (cutoff : Rat) :
    calculate_historical_value df_hist key cutoff =
      (cycleDates df_hist).map (fun d => (d, spec_key_total df_hist key cutoff d)) := by
  unfold calculate_historical_value spec_key_total
  refine List.map_congr_left (fun d _ => ?_)
  refine congrArg (fun l => (d, sum_duration l)) ?_
  rw [List.filter_filter, List.filter_filter]
  refine List.filter_congr (fun e _ => ?_)
  cases h1 : (e.cycle_date == some d) <;>
    cases h2 : (e.categories == key) <;>
      cases h3 : (match e.time_ended with
        | some te => decide ((te : Rat) < ((cycle_start d : Int) : Rat) + cutoff)
        | none => false) <;> rfl

/-- Lines 210-211: attach `difference = |key_category_total - today_value|`
to every historical row and keep the rows with `difference <= threshold`. -/
def similar_days_df (historical_key_totals : List (Int × Rat)) (today_key_value : Rat)
    (similarity_threshold : Rat) : List (Int × Rat × Rat) :=
  (historical_key_totals.map (fun p => (p.1, p.2, |p.2 - today_key_value|))).filter
    (fun q => decide (q.2.2 ≤ similarity_threshold))

/-- Line 213: the cycle dates of the rows within tolerance. -/
def similar_days (df_hist : List Event) (key_category : String) (cutoff : Rat)
    (today_key_value : Rat) (similarity_threshold : Rat) : List Int :=
  (similar_days_df (calculate_historical_value df_hist key_category cutoff)
      today_key_value similarity_threshold).map (fun q => q.1)

/-- Membership in the similar set decoded through the whole pipeline. -/
theorem mem_similar_days (df_hist : List Event) (key : String) (cutoff : Rat)
    (today tol : Rat) (d : Int) :
    d ∈ similar_days df_hist key cutoff today tol ↔
      d ∈ cycleDates df_hist ∧ |spec_key_total df_hist key cutoff d - today| ≤ tol := by
  unfold similar_days similar_days_df
  rw [calculate_historical_value_eq]
  simp only [List.map_map, List.mem_map, List.mem_filter, Function.comp]
  constructor
  · rintro ⟨q, ⟨⟨d', hd', rfl⟩, hq⟩, rfl⟩
    simpa using ⟨hd', by simpa using hq⟩
  · rintro ⟨hd, htol⟩
    exact ⟨(d, spec_key_total df_hist key cutoff d, |spec_key_total df_hist key cutoff d - today|),
      ⟨⟨d, hd, rfl⟩, by simpa using htol⟩, rfl⟩

/-- Claim C2: for every historical cycle and every cutoff, the
`key_category_total` computed by `calculate_historical_value` is the sum of
`duration_minutes` over exactly the key-category events of that cycle whose
end instant is strictly below `cycle_start + cutoff`; events ending at or
after the cutoff instant (and events still lacking an end) contribute
nothing. -/
theorem C2_calculate_historical_value (df_hist : List Event) (key : String) (cutoff : Rat) :
    calculate_historical_value df_hist key cutoff =
      (cycleDates df_hist).map (fun d => (d, spec_key_total df_hist key cutoff d)) :=
  calculate_historical_value_eq df_hist key cutoff

/-- Claim C3: a historical cycle is similar exactly when the absolute
difference between its key-category total and the value entered for today is
at most the tolerance, and with tolerance 0 the similar cycles are exactly
the cycles whose total equals the entered value. -/
theorem C3_similarity (df_hist : List Event) (key : String) (cutoff : Rat)
    (today tol : Rat) (d : Int) :
    (d ∈ similar_days df_hist key cutoff today tol ↔
      d ∈ cycleDates df_hist ∧ |spec_key_total df_hist key cutoff d - today| ≤ tol) ∧
    (d ∈ similar_days df_hist key cutoff today 0 ↔
      d ∈ cycleDates df_hist ∧ spec_key_total df_hist key cutoff d = today) := by
  refine ⟨mem_similar_days df_hist key cutoff today tol d, ?_⟩
  rw [mem_similar_days df_hist key cutoff today 0 d]
  rw [abs_nonpos_iff, sub_eq_zero]

/-- Minimum of a `groupby(...).agg` column; pandas only ever evaluates it on
a non-empty group. -/
def listMin : List Rat → Rat
  | [] => 0
  | x :: xs => xs.foldl min x

/-- Maximum of a `groupby(...).agg` column. -/
def listMax : List Rat → Rat
  | [] => 0
  | x :: xs => xs.foldl max x

/-- Mean of a `groupby(...).agg` / `groupby(...).mean` column. -/
def listMean (l : List Rat) : Rat := l.sum / (l.length : Rat)

/-- Line 247: `time_started >= cutoff_time` for the cutoff of a given cycle
(a `NaT` start never satisfies the comparison). -/
def remaining_after_cutoff (cutoff : Rat) (cycle_date : Int) (e : Event) : Bool :=
  match e.time_started with
  | some ts => decide (((cycle_start cycle_date : Int) : Rat) + cutoff ≤ (ts : Rat))
  | none => false

/-- Line 236: the slice of the history whose `cycle_date` is one of the
similar days (`isin` is false on `NaT`). -/
def df_similar_days (df_history : List Event) (similar_days : List Int) : List Event :=
  df_history.filter (fun e =>
    match e.cycle_date with
    | some d => similar_days.contains d
    | none => false)

/-- Lines 243-247: the activities of one similar cycle starting at or after
that cycle's cutoff instant. -/
def projection_block (df_history : List Event) (similar_days : List Int) (cutoff : Rat)
    (cycle_date : Int) : List Event :=
  ((df_similar_days df_history similar_days).filter
      (fun e => e.cycle_date == some cycle_date)).filter
    (remaining_after_cutoff cutoff cycle_date)

/-- Lines 236-249: restrict the history to the similar days, cut each of
those cycles at `cycle_start + time_passed_minutes`, keep the activities
starting at or after the cutoff, and `pd.concat` the per-cycle frames.
`pd.concat` raises `ValueError` when it is handed no objects at all, i.e.
when the similar slice of the history has no cycle group. -/
def df_projection (df_history : List Event) (similar_days : List Int) (cutoff : Rat) :
    Except String (List Event) :=
  if cycleDates (df_similar_days df_history similar_days) = [] then
    Except.error "ValueError: no objects to concatenate"
  else
    Except.ok ((cycleDates (df_similar_days df_history similar_days)).flatMap
      (projection_block df_history similar_days cutoff))

/-- The group keys of `groupby(['cycle_date', 'categories'])`: distinct
(date, category) pairs with a non-null date, in ascending lexicographic
order, as pandas produces them. -/
def groupKeys (l : List Event) : List (Int × String) :=
  ((l.filterMap (fun e => e.cycle_date.map (fun d => (d, e.categories)))).dedup).insertionSort
    (fun k k' => k.1 < k'.1 ∨ (k.1 = k'.1 ∧ k.2 ≤ k'.2))

/-- The summed `duration_minutes` of one `(cycle_date, categories)` group. -/
def key_total (l : List Event) (k : Int × String) : Rat :=
  sum_duration (l.filter (fun e => e.cycle_date == some k.1 && e.categories == k.2))

/-- The `groupby(['cycle_date', 'categories'])['duration_minutes'].sum()`
table shared by line 72 and line 253. -/
def sum_by_cycle_category (l : List Event) : List ((Int × String) × Rat) :=
  (groupKeys l).map (fun k => (k, key_total l k))

/-- Line 72: per-cycle per-category totals of the history. -/
def daily_totals_history (df_history : List Event) : List ((Int × String) × Rat) :=
  sum_by_cycle_category df_history

/-- Line 253: per-cycle per-category totals of the remaining activities. -/
def projection_summary (df_proj : List Event) : List ((Int × String) × Rat) :=
  sum_by_cycle_category df_proj

/-- The group keys of the second-level `groupby('categories')`: the distinct
categories appearing in a totals table, ascending. -/
def catKeys (s : List ((Int × String) × Rat)) : List String :=
  ((s.map (fun p => p.1.2)).dedup).insertionSort (· ≤ ·)

/-- Line 255: `groupby('categories')['duration_minutes'].agg(['min', 'mean',
'max'])` over the per-(cycle, category) totals. -/
def projection_final (s : List ((Int × String) × Rat)) : List (String × (Rat × Rat × Rat)) :=
  (catKeys s).map (fun c =>
    let obs := (s.filter (fun p => p.1.2 == c)).map (fun p => p.2)
    (c, (listMin obs, listMean obs, listMax obs)))

/-- Line 75: `groupby('categories')['duration_minutes'].mean()` over the
per-(cycle, category) totals of the history. -/
def avg_totals (s : List ((Int × String) × Rat)) : List (String × Rat) :=
  (catKeys s).map (fun c =>
    (c, listMean ((s.filter (fun p => p.1.2 == c)).map (fun p => p.2))))

/-- Line 17: the tracked categories. -/
def MAIN_CATEGORIES : List String := ["Acordada", "Mamou", "Dormiu"]

/-- Modelled from the spec (§4.6): the observation of one (cycle, category)
pair — the summed `duration_minutes` of the remaining events (start at or
after the cycle's cutoff instant) of that category in that cycle. -/
def remaining_total (df_history : List Event) (cutoff : Rat) (c : String) (d : Int) : Rat :=
  sum_duration ((df_history.filter (fun e => e.cycle_date == some d && e.categories == c)).filter
    (remaining_after_cutoff cutoff d))

/-- Modelled from the claim wording for C5: per-category statistics taken
across all the similar cycles, a cycle with no remaining event of the
category contributing the observation 0 (its empty per-category sum). -/
def claimed_projection_stats (df_history : List Event) (similar_days : List Int)
    (cutoff : Rat) (c : String) : Rat × Rat × Rat :=
  let obs := similar_days.map (remaining_total df_history cutoff c)
  (listMin obs, listMean obs, listMax obs)

/-- Membership in the `groupby('cycle_date')` key list. -/
theorem mem_cycleDates {l : List Event} {d : Int} :
    d ∈ cycleDates l ↔ ∃ e, e ∈ l ∧ e.cycle_date = some d := by
  simp [cycleDates, List.mem_insertionSort, List.mem_dedup, List.mem_filterMap]

/-- The `groupby('cycle_date')` key list has no duplicates. -/
theorem nodup_cycleDates (l : List Event) : (cycleDates l).Nodup :=
  ((List.perm_insertionSort _ _).nodup_iff).mpr (List.nodup_dedup _)

/-- Membership in the `groupby(['cycle_date', 'categories'])` key list. -/
theorem mem_groupKeys {l : List Event} {k : Int × String} :
    k ∈ groupKeys l ↔ ∃ e, e ∈ l ∧ e.cycle_date = some k.1 ∧ e.categories = k.2 := by
  obtain ⟨d, c⟩ := k
  simp only [groupKeys, List.mem_insertionSort, List.mem_dedup, List.mem_filterMap,
    Option.map_eq_some', Prod.mk.injEq]
  constructor
  · rintro ⟨e, he, a, ha, rfl, rfl⟩
    exact ⟨e, he, ha, rfl⟩
  · rintro ⟨e, he, hd, hc⟩
    exact ⟨e, he, d, hd, rfl, hc⟩

/-- The `groupby(['cycle_date', 'categories'])` key list has no duplicates. -/
theorem nodup_groupKeys (l : List Event) : (groupKeys l).Nodup :=
  ((List.perm_insertionSort _ _).nodup_iff).mpr (List.nodup_dedup _)

/-- Membership in the `groupby('categories')` key list. -/
theorem mem_catKeys {s : List ((Int × String) × Rat)} {c : String} :
    c ∈ catKeys s ↔ ∃ p, p ∈ s ∧ p.1.2 = c := by
  simp [catKeys, List.mem_insertionSort, List.mem_dedup, List.mem_map]

/-- Summation of durations distributes over concatenation. -/
theorem sum_duration_append (a b : List Event) :
    sum_duration (a ++ b) = sum_duration a + sum_duration b := by
  simp [sum_duration]

/-- The first half of claim C4 holds: an empty history yields an empty
similar set without error.  The second half fails: the projection applied to
an empty similar set does not return all-zero statistics — it raises
(`pd.concat` with no objects; line 249), which is why the app stops at line
222 before ever reaching it. -/
theorem C4_counterexample :
    similar_days [] "Dormiu" 600 0 60 = [] ∧
    df_projection [] ([] : List Int) 600 =
      Except.error "ValueError: no objects to concatenate" :=
  ⟨rfl, rfl⟩

/-- Amended claim C4: on an empty history the similarity search returns an
empty sequence, as it does whenever every historical cycle misses the
tolerance; neither raises.  The projection applied to an empty similar set,
however, raises `ValueError` (`pd.concat` of no objects) instead of
returning zero statistics — the app guards this by stopping when the
similar set is empty. -/
theorem C4_empty_similarity (df_hist : List Event) (key : String)
    (cutoff today tol : Rat) :
    calculate_historical_value [] key cutoff = [] ∧
    similar_days [] key cutoff today tol = [] ∧
    ((∀ p ∈ calculate_historical_value df_hist key cutoff, tol < |p.2 - today|) →
      similar_days df_hist key cutoff today tol = []) ∧
    df_projection df_hist [] cutoff =
      Except.error "ValueError: no objects to concatenate" := by
  refine ⟨rfl, rfl, ?_, ?_⟩
  · intro h
    unfold similar_days similar_days_df
    rw [List.map_eq_nil_iff, List.filter_eq_nil_iff]
    intro q hq
    rw [List.mem_map] at hq
    obtain ⟨p, hp, rfl⟩ := hq
    simpa using not_le.mpr (h p hp)
  · unfold df_projection
    have hnil : df_similar_days df_hist [] = [] := by
      unfold df_similar_days
      rw [List.filter_eq_nil_iff]
      intro e _
      cases e.cycle_date <;> simp [List.contains]
    rw [hnil]
    rfl

/-- A one-event history used to instantiate `C4_empty_similarity`. -/
def c4Hist : List Event :=
  [{ time_started := some 400, time_ended := some 450, categories := "Dormiu",
     duration_minutes := 50, cycle_date := some 0 }]

/-- Witness for `C4_empty_similarity`: with today's value 0 and tolerance
10, the single historical cycle (total 50) misses the tolerance and the
similar set is empty. -/
theorem C4_witness :
    calculate_historical_value c4Hist "Dormiu" 600 = [(0, (50 : Rat))] ∧
    similar_days c4Hist "Dormiu" 600 0 10 = [] := by
  have hcalc : calculate_historical_value c4Hist "Dormiu" 600 = [(0, (50 : Rat))] := by
    norm_num [calculate_historical_value, cycleDates, sum_duration, cycle_start, c4Hist,
      List.insertionSort, List.orderedInsert]
  refine ⟨hcalc, (C4_empty_similarity c4Hist "Dormiu" 600 0 10).2.2.1 ?_⟩
  rw [hcalc]
  intro p hp
  rw [List.mem_singleton] at hp
  subst hp
  norm_num

/-- Membership in one per-cycle block of the projection data. -/
theorem mem_projection_block {df_history : List Event} {sim : List Int} {cutoff : Rat}
    {d : Int} {e : Event} :
    e ∈ projection_block df_history sim cutoff d ↔
      e ∈ df_history ∧ e.cycle_date = some d ∧ sim.contains d = true ∧
        remaining_after_cutoff cutoff d e = true := by
  unfold projection_block df_similar_days
  simp only [List.mem_filter]
  constructor
  · rintro ⟨⟨⟨he, hsim⟩, hcd⟩, hrem⟩
    have hcd' : e.cycle_date = some d := by simpa using hcd
    rw [hcd'] at hsim
    exact ⟨he, hcd', hsim, hrem⟩
  · rintro ⟨he, hcd, hsim, hrem⟩
    exact ⟨⟨⟨he, by rw [hcd]; exact hsim⟩, by simp [hcd]⟩, hrem⟩

/-- Summing a cycle-keyed filter over the concatenation of per-cycle blocks
collapses to the block carrying that key. -/
theorem sum_filter_flatMap (block : Int → List Event)
    (hblock : ∀ d e, e ∈ block d → e.cycle_date = some d) (q : Event → Bool) (d : Int) :
    ∀ ds : List Int, ds.Nodup →
      sum_duration ((ds.flatMap block).filter (fun e => e.cycle_date == some d && q e)) =
        if d ∈ ds then sum_duration ((block d).filter q) else 0 := by
  intro ds
  induction ds with
  | nil => intro _; simp [sum_duration]
  | cons d' ds ih =>
    intro hnd
    rw [List.flatMap_cons, List.filter_append, sum_duration_append,
      ih (List.Nodup.of_cons hnd)]
    by_cases hdd : d' = d
    · subst hdd
      have h1 : (block d').filter (fun e => e.cycle_date == some d' && q e) =
          (block d').filter q := by
        refine List.filter_congr (fun e he => ?_)
        simp [hblock d' e he]
      have h2 : d' ∉ ds := (List.nodup_cons.mp hnd).1
      simp [h1, h2]
    · have h1 : (block d').filter (fun e => e.cycle_date == some d && q e) = [] := by
        rw [List.filter_eq_nil_iff]
        intro e he
        simp [hblock d' e he, hdd]
      have h3 : (d ∈ d' :: ds) ↔ d ∈ ds := by
        rw [List.mem_cons]
        constructor
        · rintro (h | h)
          · exact absurd h.symm hdd
          · exact h
        · exact Or.inr
      rw [h1]
      simp [sum_duration, h3]

/-- Filtering one projection block by category yields the spec-side
remaining events of that (cycle, category) pair. -/
theorem projection_block_filter_cat (df_history : List Event) (sim : List Int) (cutoff : Rat)
    (d : Int) (c : String) (hd : sim.contains d = true) :
    (projection_block df_history sim cutoff d).filter (fun e => e.categories == c) =
      (df_history.filter (fun e => e.cycle_date == some d && e.categories == c)).filter
        (remaining_after_cutoff cutoff d) := by
  unfold projection_block df_similar_days
  rw [List.filter_filter, List.filter_filter, List.filter_filter, List.filter_filter]
  refine List.filter_congr (fun e _ => ?_)
  by_cases hcd : e.cycle_date = some d
  · have h2 : (match e.cycle_date with
        | some d' => sim.contains d'
        | none => false) = true := by
      rw [hcd]; exact hd
    have h4 : d ∈ sim := by simpa using hd
    simp [hcd, h2, h4, Bool.and_comm, Bool.and_left_comm, Bool.and_assoc]
  · have h1 : (e.cycle_date == some d) = false := by simp [hcd]
    simp [h1]

/-- Inversion of a successful `pd.concat`: the projection dataframe is the
concatenation of the per-cycle blocks. -/
theorem df_projection_ok {df_history : List Event} {sim : List Int} {cutoff : Rat}
    {evs : List Event} (h : df_projection df_history sim cutoff = Except.ok evs) :
    evs = (cycleDates (df_similar_days df_history sim)).flatMap
      (projection_block df_history sim cutoff) := by
  unfold df_projection at h
  by_cases hc : cycleDates (df_similar_days df_history sim) = []
  · rw [if_pos hc] at h
    cases h
  · rw [if_neg hc] at h
    injection h with h
    exact h.symm

/-- The rows of the projection dataframe are exactly the history rows of a
similar cycle starting at or after that cycle's cutoff instant. -/
theorem mem_df_projection {df_history : List Event} {sim : List Int} {cutoff : Rat}
    {evs : List Event} (h : df_projection df_history sim cutoff = Except.ok evs) (e : Event) :
    e ∈ evs ↔ e ∈ df_history ∧ ∃ d, e.cycle_date = some d ∧ sim.contains d = true ∧
      remaining_after_cutoff cutoff d e = true := by
  rw [df_projection_ok h, List.mem_flatMap]
  constructor
  · rintro ⟨d, _, hb⟩
    obtain ⟨he, hcd, hsim, hrem⟩ := mem_projection_block.mp hb
    exact ⟨he, d, hcd, hsim, hrem⟩
  · rintro ⟨he, d, hcd, hsim, hrem⟩
    refine ⟨d, ?_, mem_projection_block.mpr ⟨he, hcd, hsim, hrem⟩⟩
    refine mem_cycleDates.mpr ⟨e, ?_, hcd⟩
    unfold df_similar_days
    rw [List.mem_filter]
    exact ⟨he, by rw [hcd]; exact hsim⟩

/-- The per-(cycle, category) sum over the projection dataframe equals the
spec-side remaining total of that pair. -/
theorem sum_key_df_projection (df_history : List Event) (sim : List Int) (cutoff : Rat)
    (d : Int) (c : String) :
    sum_duration (((cycleDates (df_similar_days df_history sim)).flatMap
        (projection_block df_history sim cutoff)).filter
      (fun e => e.cycle_date == some d && e.categories == c)) =
      if d ∈ cycleDates (df_similar_days df_history sim)
      then remaining_total df_history cutoff c d else 0 := by
  rw [sum_filter_flatMap (projection_block df_history sim cutoff)
      (fun d' e he => (mem_projection_block.mp he).2.1) _ d _ (nodup_cycleDates _)]
  by_cases hmem : d ∈ cycleDates (df_similar_days df_history sim)
  · have hd : sim.contains d = true := by
      obtain ⟨e, he, hcd⟩ := mem_cycleDates.mp hmem
      unfold df_similar_days at he
      rw [List.mem_filter] at he
      have := he.2
      rw [hcd] at this
      exact this
    rw [if_pos hmem, if_pos hmem, projection_block_filter_cat _ _ _ _ _ hd]
    rfl
  · rw [if_neg hmem, if_neg hmem]

/-- Every group key of the projection dataframe names one of the similar
cycle groups. -/
theorem groupKey_date_mem {df_history : List Event} {sim : List Int} {cutoff : Rat}
    {evs : List Event} (h : df_projection df_history sim cutoff = Except.ok evs)
    {k : Int × String} (hk : k ∈ groupKeys evs) :
    k.1 ∈ cycleDates (df_similar_days df_history sim) := by
  obtain ⟨e, he, hcd, _⟩ := mem_groupKeys.mp hk
  rw [df_projection_ok h, List.mem_flatMap] at he
  obtain ⟨d', hd', hb⟩ := he
  have hcd' := (mem_projection_block.mp hb).2.1
  rw [hcd'] at hcd
  injection hcd with hcd
  rwa [hcd] at hd'

/-- The per-group total of the projection dataframe is the spec-side
remaining total of that (cycle, category) pair. -/
theorem key_total_df_projection {df_history : List Event} {sim : List Int} {cutoff : Rat}
    {evs : List Event} (h : df_projection df_history sim cutoff = Except.ok evs)
    {k : Int × String} (hk : k ∈ groupKeys evs) :
    key_total evs k = remaining_total df_history cutoff k.2 k.1 := by
  unfold key_total
  rw [df_projection_ok h, sum_key_df_projection, if_pos (groupKey_date_mem h hk)]

/-- Amended claim C5: the remaining events of a similar cycle are exactly
those with `start >= cycle_start + elapsed`, and each category row of the
projection statistics carries the min, mean and max of the per-cycle
remaining sums taken across only those similar cycles in which the category
has at least one remaining event (a (cycle, category) pair with no
remaining event contributes no observation, because `groupby` creates no
group for it). -/
theorem C5_projection_statistics (df_history : List Event) (sim : List Int) (cutoff : Rat)
    (evs : List Event) (h : df_projection df_history sim cutoff = Except.ok evs) :
    (∀ e, e ∈ evs ↔ e ∈ df_history ∧ ∃ d, e.cycle_date = some d ∧ sim.contains d = true ∧
        remaining_after_cutoff cutoff d e = true) ∧
    (∀ c s, (c, s) ∈ projection_final (projection_summary evs) →
      ∃ ds : List Int, ds ≠ [] ∧ ds.Nodup ∧
        (∀ d, d ∈ ds ↔ ∃ e, e ∈ df_history ∧ e.cycle_date = some d ∧
            sim.contains d = true ∧ remaining_after_cutoff cutoff d e = true ∧
            e.categories = c) ∧
        s = (listMin (ds.map (remaining_total df_history cutoff c)),
             listMean (ds.map (remaining_total df_history cutoff c)),
             listMax (ds.map (remaining_total df_history cutoff c)))) := by
  refine ⟨mem_df_projection h, ?_⟩
  intro c s hrow
  simp only [projection_final, List.mem_map] at hrow
  obtain ⟨c', hc', hrow⟩ := hrow
  rw [Prod.mk.injEq] at hrow
  obtain ⟨rfl, hs⟩ := hrow
  refine ⟨((groupKeys evs).filter (fun k => k.2 == c')).map (fun k => k.1), ?_, ?_, ?_, ?_⟩
  · obtain ⟨p, hp, hpc⟩ := mem_catKeys.mp hc'
    simp only [projection_summary, sum_by_cycle_category, List.mem_map] at hp
    obtain ⟨k, hk, rfl⟩ := hp
    refine List.ne_nil_of_mem (a := k.1) (List.mem_map_of_mem _ ?_)
    rw [List.mem_filter]
    refine ⟨hk, by simpa using (hpc : k.2 = c')⟩
  · refine List.Nodup.map_on ?_ ((nodup_groupKeys evs).filter _)
    intro x hx y hy hxy
    rw [List.mem_filter] at hx hy
    have hx2 : x.2 = c' := by simpa using hx.2
    have hy2 : y.2 = c' := by simpa using hy.2
    exact Prod.ext hxy (hx2.trans hy2.symm)
  · intro d
    rw [List.mem_map]
    constructor
    · rintro ⟨k, hk, rfl⟩
      rw [List.mem_filter] at hk
      have hk2 : k.2 = c' := by simpa using hk.2
      obtain ⟨e, he, hcd, hcat⟩ := mem_groupKeys.mp hk.1
      obtain ⟨hehist, d', hcd', hsim, hrem⟩ := (mem_df_projection h e).mp he
      rw [hcd'] at hcd
      injection hcd with hcd
      rw [hcd] at hcd' hsim hrem
      exact ⟨e, hehist, hcd', hsim, hrem, hcat.trans hk2⟩
    · rintro ⟨e, hehist, hcd, hsim, hrem, hcat⟩
      have he : e ∈ evs := (mem_df_projection h e).mpr ⟨hehist, d, hcd, hsim, hrem⟩
      refine ⟨(d, c'), ?_, rfl⟩
      rw [List.mem_filter]
      exact ⟨mem_groupKeys.mpr ⟨e, he, hcd, hcat⟩, by simp⟩
  · have hobs : (projection_summary evs).filter (fun p => p.1.2 == c') =
        ((groupKeys evs).filter (fun k => k.2 == c')).map (fun k => (k, key_total evs k)) := by
      simp only [projection_summary, sum_by_cycle_category]
      rw [List.filter_map]
      rfl
    have hmap : (((groupKeys evs).filter (fun k => k.2 == c')).map (fun k => k.1)).map
          (remaining_total df_history cutoff c') =
        ((groupKeys evs).filter (fun k => k.2 == c')).map (key_total evs) := by
      rw [List.map_map]
      refine List.map_congr_left (fun k hk => ?_)
      rw [List.mem_filter] at hk
      have hk2 : k.2 = c' := by simpa using hk.2
      have := key_total_df_projection h hk.1
      rw [hk2] at this
      exact this.symm
    rw [hmap, ← hs, hobs, List.map_map]
    rfl

/-- A remaining activity of cycle 0: Mamou from minute 560 to 600. -/
def e1 : Event :=
  { time_started := some 560, time_ended := some 600, categories := "Mamou",
    duration_minutes := 30, cycle_date := some 0 }

/-- An early activity of cycle 0: Dormiu from minute 400 to 450. -/
def e2 : Event :=
  { time_started := some 400, time_ended := some 450, categories := "Dormiu",
    duration_minutes := 50, cycle_date := some 0 }

/-- An early activity of cycle 1: Dormiu from minute 1840 to 1890. -/
def e3 : Event :=
  { time_started := some 1840, time_ended := some 1890, categories := "Dormiu",
    duration_minutes := 50, cycle_date := some 1 }

/-- A two-cycle history: both cycles have Dormiu total 50 before minute 100
of the cycle, and only cycle 0 has a remaining Mamou activity after it. -/
def hist5 : List Event := [e1, e2, e3]

/-- Claim C5 fails on the code for categories absent from some similar
cycle: with the two similar cycles 0 and 1 and Mamou remaining only in
cycle 0 (30 minutes), the claim's statistics across the similar cycles are
(min 0, mean 15, max 30), but the code reports (30, 30, 30) because
`groupby` creates no `(1, Mamou)` group. -/
theorem C5_counterexample :
    similar_days hist5 "Dormiu" 100 50 60 = [0, 1] ∧
    df_projection hist5 [0, 1] 100 = Except.ok [e1] ∧
    projection_final (projection_summary [e1]) = [("Mamou", ((30 : Rat), (30 : Rat), (30 : Rat)))] ∧
    claimed_projection_stats hist5 [0, 1] 100 "Mamou" = ((0 : Rat), (15 : Rat), (30 : Rat)) ∧
    ((30 : Rat), (30 : Rat), (30 : Rat)) ≠ ((0 : Rat), (15 : Rat), (30 : Rat)) := by
  refine ⟨?_, ?_, ?_, ?_, by norm_num⟩
  · norm_num [similar_days, similar_days_df, calculate_historical_value, cycleDates,
      sum_duration, cycle_start, hist5, e1, e2, e3, List.insertionSort, List.orderedInsert]
  · norm_num [df_projection, df_similar_days, projection_block, cycleDates,
      remaining_after_cutoff, cycle_start, hist5, e1, e2, e3,
      List.insertionSort, List.orderedInsert, List.flatMap]
    exact fun hc => absurd hc (by decide)
  · norm_num [projection_final, projection_summary, sum_by_cycle_category, groupKeys,
      key_total, catKeys, listMin, listMean, listMax, sum_duration, e1,
      List.insertionSort, List.orderedInsert]
  · norm_num [claimed_projection_stats, remaining_total, remaining_after_cutoff,
      cycle_start, sum_duration, listMin, listMean, listMax, hist5, e1, e2, e3]

/-- Witness instantiating `C5_projection_statistics` on the concrete
two-cycle history, discharging its `df_projection ... = ok` hypothesis. -/
theorem C5_witness :
    df_projection hist5 [0, 1] 100 = Except.ok [e1] ∧
    ((∀ e, e ∈ [e1] ↔ e ∈ hist5 ∧ ∃ d, e.cycle_date = some d ∧
        ([0, 1] : List Int).contains d = true ∧
        remaining_after_cutoff 100 d e = true) ∧
     (∀ c s, (c, s) ∈ projection_final (projection_summary [e1]) →
       ∃ ds : List Int, ds ≠ [] ∧ ds.Nodup ∧
         (∀ d, d ∈ ds ↔ ∃ e, e ∈ hist5 ∧ e.cycle_date = some d ∧
             ([0, 1] : List Int).contains d = true ∧
             remaining_after_cutoff 100 d e = true ∧ e.categories = c) ∧
         s = (listMin (ds.map (remaining_total hist5 100 c)),
              listMean (ds.map (remaining_total hist5 100 c)),
              listMax (ds.map (remaining_total hist5 100 c))))) := by
  have hok : df_projection hist5 [0, 1] 100 = Except.ok [e1] := by
    norm_num [df_projection, df_similar_days, projection_block, cycleDates,
      remaining_after_cutoff, cycle_start, hist5, e1, e2, e3,
      List.insertionSort, List.orderedInsert, List.flatMap]
    exact fun hc => absurd hc (by decide)
  exact ⟨hok, C5_projection_statistics hist5 [0, 1] 100 [e1] hok⟩

/-- Amended claim C6: the projection statistics table has a row for a
category exactly when some remaining event of a similar cycle carries that
category; a tracked category with zero remaining-duration observations is
omitted from the table, not reported as an all-zero row. -/
theorem C6_absent_category_omitted (df_history : List Event) (sim : List Int) (cutoff : Rat)
    (evs : List Event) (h : df_projection df_history sim cutoff = Except.ok evs) (c : String) :
    (∃ s, (c, s) ∈ projection_final (projection_summary evs)) ↔
      ∃ e, e ∈ evs ∧ e.categories = c := by
  constructor
  · rintro ⟨s, hs⟩
    simp only [projection_final, List.mem_map] at hs
    obtain ⟨c', hc', hcs⟩ := hs
    rw [Prod.mk.injEq] at hcs
    obtain ⟨rfl, -⟩ := hcs
    obtain ⟨p, hp, hpc⟩ := mem_catKeys.mp hc'
    simp only [projection_summary, sum_by_cycle_category, List.mem_map] at hp
    obtain ⟨k, hk, rfl⟩ := hp
    obtain ⟨e, he, _, hcat⟩ := mem_groupKeys.mp hk
    exact ⟨e, he, hcat.trans (hpc : k.2 = c')⟩
  · rintro ⟨e, he, hcat⟩
    obtain ⟨-, d, hcd, -, -⟩ := (mem_df_projection h e).mp he
    have hk : (d, c) ∈ groupKeys evs := mem_groupKeys.mpr ⟨e, he, hcd, hcat⟩
    have hcc : c ∈ catKeys (projection_summary evs) := by
      refine mem_catKeys.mpr ⟨((d, c), key_total evs (d, c)), ?_, rfl⟩
      simp only [projection_summary, sum_by_cycle_category, List.mem_map]
      exact ⟨(d, c), hk, rfl⟩
    refine ⟨(listMin (((projection_summary evs).filter (fun p => p.1.2 == c)).map (fun p => p.2)),
             listMean (((projection_summary evs).filter (fun p => p.1.2 == c)).map (fun p => p.2)),
             listMax (((projection_summary evs).filter (fun p => p.1.2 == c)).map (fun p => p.2))), ?_⟩
    simp only [projection_final, List.mem_map]
    exact ⟨c, hcc, rfl⟩

/-- An early Dormiu activity of cycle 0, entirely before minute 100 of the
cycle. -/
def e6a : Event :=
  { time_started := some 400, time_ended := some 450, categories := "Dormiu",
    duration_minutes := 50, cycle_date := some 0 }

/-- A remaining Acordada activity of cycle 0. -/
def e6b : Event :=
  { time_started := some 500, time_ended := some 520, categories := "Acordada",
    duration_minutes := 20, cycle_date := some 0 }

/-- A one-cycle history in which the tracked category Dormiu occurs only
before the cutoff. -/
def hist6 : List Event := [e6a, e6b]

/-- Claim C6 fails on the code: cycle 0 is similar, Dormiu (a tracked
category) never occurs after the cutoff in any similar cycle, and the
projection statistics table simply has no Dormiu row — it is not reported
as an all-zero row. -/
theorem C6_counterexample :
    similar_days hist6 "Dormiu" 100 50 60 = [0] ∧
    df_projection hist6 [0] 100 = Except.ok [e6b] ∧
    (projection_final (projection_summary [e6b])).map (fun r => r.1) = ["Acordada"] ∧
    "Dormiu" ∈ MAIN_CATEGORIES ∧ ("Dormiu" : String) ∉ (["Acordada"] : List String) := by
  refine ⟨?_, ?_, ?_, by decide, by decide⟩
  · norm_num [similar_days, similar_days_df, calculate_historical_value, cycleDates,
      sum_duration, cycle_start, hist6, e6a, e6b, List.insertionSort, List.orderedInsert]
  · norm_num [df_projection, df_similar_days, projection_block, cycleDates,
      remaining_after_cutoff, cycle_start, hist6, e6a, e6b,
      List.insertionSort, List.orderedInsert, List.flatMap]
  · norm_num [projection_final, projection_summary, sum_by_cycle_category, groupKeys,
      key_total, catKeys, listMin, listMean, listMax, sum_duration, e6b,
      List.insertionSort, List.orderedInsert]

/-- Witness instantiating `C6_absent_category_omitted` on the concrete
one-cycle history, discharging its `df_projection ... = ok` hypothesis. -/
theorem C6_witness :
    df_projection hist6 [0] 100 = Except.ok [e6b] ∧
    ((∃ s, ("Acordada", s) ∈ projection_final (projection_summary [e6b])) ↔
      ∃ e, e ∈ [e6b] ∧ e.categories = "Acordada") := by
  have hok : df_projection hist6 [0] 100 = Except.ok [e6b] := by
    norm_num [df_projection, df_similar_days, projection_block, cycleDates,
      remaining_after_cutoff, cycle_start, hist6, e6a, e6b,
      List.insertionSort, List.orderedInsert, List.flatMap]
  exact ⟨hok, C6_absent_category_omitted hist6 [0] 100 [e6b] hok "Acordada"⟩

/-- Helper: pointwise sums split. -/
theorem sum_map_add_rat (ks : List Int) (f g : Int → Rat) :
    (ks.map (fun d => f d + g d)).sum = (ks.map f).sum + (ks.map g).sum := by
  induction ks with
  | nil => simp
  | cons k ks ih => simp [ih]; ring

/-- Helper: a one-hot sum vanishes off its support. -/
theorem sum_map_ite_not_mem (d0 : Int) (x : Rat) :
    ∀ ks : List Int, d0 ∉ ks → (ks.map (fun d => if d = d0 then x else 0)).sum = 0 := by
  intro ks
  induction ks with
  | nil => intro _; rfl
  | cons k ks ih =>
    intro h
    rw [List.mem_cons] at h
    push_neg at h
    have hk : ¬(k = d0) := fun hk => h.1 hk.symm
    simp [hk, ih h.2]

/-- Helper: a one-hot sum over a duplicate-free list picks its value. -/
theorem sum_map_ite_mem (d0 : Int) (x : Rat) :
    ∀ ks : List Int, ks.Nodup → d0 ∈ ks →
      (ks.map (fun d => if d = d0 then x else 0)).sum = x := by
  intro ks
  induction ks with
  | nil => intro _ h; cases h
  | cons k ks ih =>
    intro hnd hmem
    rw [List.mem_cons] at hmem
    by_cases hk : k = d0
    · subst hk
      have : k ∉ ks := (List.nodup_cons.mp hnd).1
      simp [sum_map_ite_not_mem k x ks this]
    · have hd : d0 ∈ ks := hmem.resolve_left (fun h => hk h.symm)
      simp [hk, ih (List.Nodup.of_cons hnd) hd]

/-- Grouping the rows by cycle date and summing the groups reproduces the
overall duration total, for any duplicate-free key list covering every
row's cycle date. -/
theorem sum_duration_fibers :
    ∀ (l : List Event) (ks : List Int), ks.Nodup →
      (∀ e ∈ l, ∃ d, d ∈ ks ∧ e.cycle_date = some d) →
      (ks.map (fun d => sum_duration (l.filter (fun e => e.cycle_date == some d)))).sum =
        sum_duration l := by
  intro l
  induction l with
  | nil =>
    intro ks _ _
    have : ∀ d : Int, sum_duration (([] : List Event).filter
        (fun e => e.cycle_date == some d)) = 0 := fun _ => rfl
    calc (ks.map (fun d => sum_duration (([] : List Event).filter
            (fun e => e.cycle_date == some d)))).sum
        = (ks.map (fun _ => (0 : Rat))).sum := by
          exact congrArg List.sum (List.map_congr_left (fun d _ => this d))
      _ = 0 := by induction ks with
          | nil => rfl
          | cons k ks ih => simp [ih]
      _ = sum_duration [] := rfl
  | cons e l ih =>
    intro ks hnd hcov
    obtain ⟨d0, hd0, hcd⟩ := hcov e (List.mem_cons_self e l)
    have hfe : ∀ d : Int, sum_duration ((e :: l).filter (fun x => x.cycle_date == some d)) =
        (if d = d0 then e.duration_minutes else 0) +
          sum_duration (l.filter (fun x => x.cycle_date == some d)) := by
      intro d
      rw [List.filter_cons]
      by_cases hdd : d = d0
      · subst hdd
        simp [hcd, sum_duration]
      · have hfalse : (e.cycle_date == some d) = false := by
          simp [hcd]
          exact fun h => hdd h.symm
        simp [hfalse, hdd]
    calc (ks.map (fun d => sum_duration ((e :: l).filter
            (fun x => x.cycle_date == some d)))).sum
        = (ks.map (fun d => (if d = d0 then e.duration_minutes else 0) +
            sum_duration (l.filter (fun x => x.cycle_date == some d)))).sum := by
          exact congrArg List.sum (List.map_congr_left (fun d _ => hfe d))
      _ = (ks.map (fun d => if d = d0 then e.duration_minutes else 0)).sum +
            (ks.map (fun d => sum_duration (l.filter
              (fun x => x.cycle_date == some d)))).sum := sum_map_add_rat ks _ _
      _ = e.duration_minutes + sum_duration l := by
          rw [sum_map_ite_mem d0 e.duration_minutes ks hnd hd0,
            ih ks hnd (fun x hx => hcov x (List.mem_cons_of_mem e hx))]
      _ = sum_duration (e :: l) := by simp [sum_duration]

/-- Counting rows by cycle-date group reproduces the row count (stated over
the rationals), for any duplicate-free key list covering every row's cycle
date. -/
theorem length_fibers :
    ∀ (l : List Event) (ks : List Int), ks.Nodup →
      (∀ e ∈ l, ∃ d, d ∈ ks ∧ e.cycle_date = some d) →
      (ks.map (fun d => ((l.filter (fun e => e.cycle_date == some d)).length : Rat))).sum =
        (l.length : Rat) := by
  intro l
  induction l with
  | nil =>
    intro ks _ _
    have : ∀ d : Int, ((([] : List Event).filter
        (fun e => e.cycle_date == some d)).length : Rat) = 0 := fun _ => rfl
    calc (ks.map (fun d => ((([] : List Event).filter
            (fun e => e.cycle_date == some d)).length : Rat))).sum
        = (ks.map (fun _ => (0 : Rat))).sum := by
          exact congrArg List.sum (List.map_congr_left (fun d _ => this d))
      _ = 0 := by induction ks with
          | nil => rfl
          | cons k ks ih => simp [ih]
      _ = (([] : List Event).length : Rat) := by simp
  | cons e l ih =>
    intro ks hnd hcov
    obtain ⟨d0, hd0, hcd⟩ := hcov e (List.mem_cons_self e l)
    have hfe : ∀ d : Int, (((e :: l).filter (fun x => x.cycle_date == some d)).length : Rat) =
        (if d = d0 then (1 : Rat) else 0) +
          ((l.filter (fun x => x.cycle_date == some d)).length : Rat) := by
      intro d
      rw [List.filter_cons]
      by_cases hdd : d = d0
      · subst hdd
        simp [hcd, add_comm]
      · have hfalse : (e.cycle_date == some d) = false := by
          simp [hcd]
          exact fun h => hdd h.symm
        simp [hfalse, hdd]
    calc (ks.map (fun d => (((e :: l).filter
            (fun x => x.cycle_date == some d)).length : Rat))).sum
        = (ks.map (fun d => (if d = d0 then (1 : Rat) else 0) +
            ((l.filter (fun x => x.cycle_date == some d)).length : Rat))).sum := by
          exact congrArg List.sum (List.map_congr_left (fun d _ => hfe d))
      _ = (ks.map (fun d => if d = d0 then (1 : Rat) else 0)).sum +
            (ks.map (fun d => ((l.filter
              (fun x => x.cycle_date == some d)).length : Rat))).sum := sum_map_add_rat ks _ _
      _ = 1 + (l.length : Rat) := by
          rw [sum_map_ite_mem d0 1 ks hnd hd0,
            ih ks hnd (fun x hx => hcov x (List.mem_cons_of_mem e hx))]
      _ = ((e :: l).length : Rat) := by
          simp [add_comm]

/-- Helper: a sum of terms that are each at least one dominates the length. -/
theorem sum_ge_length (f : Int → Rat) :
    ∀ ds : List Int, (∀ d ∈ ds, 1 ≤ f d) → (ds.length : Rat) ≤ (ds.map f).sum := by
  intro ds
  induction ds with
  | nil => intro _; simp
  | cons k ds ih =>
    intro h1
    have hk := h1 k (List.mem_cons_self k ds)
    have hds := ih (fun d hd => h1 d (List.mem_cons_of_mem k hd))
    simp only [List.map_cons, List.sum_cons, List.length_cons]
    push_cast
    linarith

/-- Helper: if moreover one term is at least two, the sum strictly exceeds
the length. -/
theorem sum_ge_length_add_one (f : Int → Rat) :
    ∀ ds : List Int, (∀ d ∈ ds, 1 ≤ f d) → ∀ d0 ∈ ds, 2 ≤ f d0 →
      (ds.length : Rat) + 1 ≤ (ds.map f).sum := by
  intro ds
  induction ds with
  | nil => intro _ d0 h; cases h
  | cons k ds ih =>
    intro h1 d0 hd0 h2
    rw [List.mem_cons] at hd0
    simp only [List.map_cons, List.sum_cons, List.length_cons]
    rcases hd0 with rfl | hd0
    · have hds := sum_ge_length f ds (fun d hd => h1 d (List.mem_cons_of_mem d0 hd))
      push_cast
      linarith
    · have hk := h1 k (List.mem_cons_self k ds)
      have hds := ih (fun d hd => h1 d (List.mem_cons_of_mem k hd)) d0 hd0 h2
      push_cast
      push_cast at hds
      linarith

/-- Amended claim C7: a category's average row is the mean, over the cycle
dates on which the category occurs, of the per-cycle sums of
`duration_minutes` — a mean of per-period sums.  It differs from the mean of
the individual event durations whenever the category occurs more than once
in some cycle, provided all its events carry a cycle date and its total
duration is nonzero (with an all-zero total the two means are both zero and
coincide, so the unconditional claim fails). -/
theorem C7_average_of_sums (df_history : List Event) (c : String) (avg : Rat)
    (hrow : (c, avg) ∈ avg_totals (daily_totals_history df_history)) :
    ∃ ds : List Int, ds ≠ [] ∧ ds.Nodup ∧
      (∀ d, d ∈ ds ↔ ∃ e, e ∈ df_history ∧ e.categories = c ∧ e.cycle_date = some d) ∧
      avg = listMean (ds.map (fun d => key_total df_history (d, c))) ∧
      ((∀ e, e ∈ df_history → e.categories = c → e.cycle_date ≠ none) →
       (∃ d, 2 ≤ ((df_history.filter
           (fun e => e.categories == c && e.cycle_date == some d)).length)) →
       sum_duration (df_history.filter (fun e => e.categories == c)) ≠ 0 →
       avg ≠ listMean ((df_history.filter
         (fun e => e.categories == c)).map Event.duration_minutes)) := by
  simp only [avg_totals, List.mem_map] at hrow
  obtain ⟨c', hc', hrow⟩ := hrow
  rw [Prod.mk.injEq] at hrow
  obtain ⟨rfl, havg⟩ := hrow
  have hobs : (daily_totals_history df_history).filter (fun p => p.1.2 == c') =
      ((groupKeys df_history).filter (fun k => k.2 == c')).map
        (fun k => (k, key_total df_history k)) := by
    simp only [daily_totals_history, sum_by_cycle_category]
    rw [List.filter_map]
    rfl
  have hmem : ∀ d : Int,
      d ∈ ((groupKeys df_history).filter (fun k => k.2 == c')).map (fun k => k.1) ↔
        ∃ e, e ∈ df_history ∧ e.categories = c' ∧ e.cycle_date = some d := by
    intro d
    rw [List.mem_map]
    constructor
    · rintro ⟨k, hk, rfl⟩
      rw [List.mem_filter] at hk
      have hk2 : k.2 = c' := by simpa using hk.2
      obtain ⟨e, he, hcd, hcat⟩ := mem_groupKeys.mp hk.1
      exact ⟨e, he, hcat.trans hk2, hcd⟩
    · rintro ⟨e, he, hcat, hcd⟩
      refine ⟨(d, c'), ?_, rfl⟩
      rw [List.mem_filter]
      exact ⟨mem_groupKeys.mpr ⟨e, he, hcd, hcat⟩, by simp⟩
  have hkeymap : (((groupKeys df_history).filter (fun k => k.2 == c')).map
        (fun k => k.1)).map (fun d => key_total df_history (d, c')) =
      ((groupKeys df_history).filter (fun k => k.2 == c')).map (key_total df_history) := by
    rw [List.map_map]
    refine List.map_congr_left (fun k hk => ?_)
    rw [List.mem_filter] at hk
    have hk2 : k.2 = c' := by simpa using hk.2
    exact congrArg (key_total df_history) (Prod.ext rfl hk2.symm)
  refine ⟨((groupKeys df_history).filter (fun k => k.2 == c')).map (fun k => k.1),
    ?_, ?_, hmem, ?_, ?_⟩
  · obtain ⟨p, hp, hpc⟩ := mem_catKeys.mp hc'
    simp only [daily_totals_history, sum_by_cycle_category, List.mem_map] at hp
    obtain ⟨k, hk, rfl⟩ := hp
    refine List.ne_nil_of_mem (a := k.1) (List.mem_map_of_mem _ ?_)
    rw [List.mem_filter]
    refine ⟨hk, by simpa using (hpc : k.2 = c')⟩
  · refine List.Nodup.map_on ?_ ((nodup_groupKeys df_history).filter _)
    intro x hx y hy hxy
    rw [List.mem_filter] at hx hy
    have hx2 : x.2 = c' := by simpa using hx.2
    have hy2 : y.2 = c' := by simpa using hy.2
    exact Prod.ext hxy (hx2.trans hy2.symm)
  · rw [hkeymap, ← havg, hobs, List.map_map]
    rfl
  · intro hall hmulti hTne
    set K := (groupKeys df_history).filter (fun k => k.2 == c') with hK
    set ds := K.map (fun k => k.1) with hds
    set lc := df_history.filter (fun e => e.categories == c') with hlc
    have hkey_fiber : ∀ d : Int, key_total df_history (d, c') =
        sum_duration (lc.filter (fun e => e.cycle_date == some d)) := by
      intro d
      rw [hlc, List.filter_filter]
      rfl
    have hcov : ∀ e ∈ lc, ∃ d, d ∈ ds ∧ e.cycle_date = some d := by
      intro e he
      rw [hlc, List.mem_filter] at he
      have hcat : e.categories = c' := by simpa using he.2
      cases hcd : e.cycle_date with
      | none => exact absurd hcd (hall e he.1 hcat)
      | some d => exact ⟨d, (hmem d).mpr ⟨e, he.1, hcat, hcd⟩, rfl⟩
    have hnd : ds.Nodup := by
      rw [hds, hK]
      refine List.Nodup.map_on ?_ ((nodup_groupKeys df_history).filter _)
      intro x hx y hy hxy
      rw [List.mem_filter] at hx hy
      have hx2 : x.2 = c' := by simpa using hx.2
      have hy2 : y.2 = c' := by simpa using hy.2
      exact Prod.ext hxy (hx2.trans hy2.symm)
    have hT : (ds.map (fun d => key_total df_history (d, c'))).sum = sum_duration lc := by
      rw [List.map_congr_left (fun d _ => hkey_fiber d)]
      exact sum_duration_fibers lc ds hnd hcov
    have hN : (ds.map (fun d => ((lc.filter
        (fun e => e.cycle_date == some d)).length : Rat))).sum = (lc.length : Rat) :=
      length_fibers lc ds hnd hcov
    have hfib1 : ∀ d ∈ ds, (1 : Rat) ≤ ((lc.filter
        (fun e => e.cycle_date == some d)).length : Rat) := by
      intro d hd
      obtain ⟨e, he, hcat, hcd⟩ := (hmem d).mp hd
      have hel : e ∈ lc.filter (fun e => e.cycle_date == some d) := by
        rw [hlc, List.mem_filter, List.mem_filter]
        exact ⟨⟨he, by simp [hcat]⟩, by simp [hcd]⟩
      have := List.length_pos_of_mem hel
      exact_mod_cast this
    obtain ⟨d0, hd0⟩ := hmulti
    have hd0len : 2 ≤ (lc.filter (fun e => e.cycle_date == some d0)).length := by
      have heq : df_history.filter (fun e => e.categories == c' &&
          e.cycle_date == some d0) = lc.filter (fun e => e.cycle_date == some d0) := by
        rw [hlc, List.filter_filter]
        exact List.filter_congr (fun e _ => Bool.and_comm _ _)
      rw [← heq]
      exact hd0
    have hd0mem : d0 ∈ ds := by
      have hpos : 0 < (lc.filter (fun e => e.cycle_date == some d0)).length := by omega
      obtain ⟨e, he⟩ := List.exists_mem_of_length_pos hpos
      rw [hlc, List.mem_filter, List.mem_filter] at he
      have hcat : e.categories = c' := by simpa using he.1.2
      have hcd : e.cycle_date = some d0 := by simpa using he.2
      exact (hmem d0).mpr ⟨e, he.1.1, hcat, hcd⟩
    have hDN : (ds.length : Rat) + 1 ≤ (lc.length : Rat) := by
      rw [← hN]
      refine sum_ge_length_add_one _ ds hfib1 d0 hd0mem ?_
      exact_mod_cast hd0len
    have hDpos : (0 : Rat) < (ds.length : Rat) := by
      have : ds ≠ [] := by
        intro hnil
        rw [hnil] at hd0mem
        cases hd0mem
      have : 0 < ds.length := List.length_pos.mpr this
      exact_mod_cast this
    have hNpos : (0 : Rat) < (lc.length : Rat) := by linarith
    have havg2 : avg = listMean (ds.map (fun d => key_total df_history (d, c'))) := by
      rw [hds, hK, hkeymap, ← havg, hobs, List.map_map]
      rfl
    rw [havg2]
    intro heq
    simp only [listMean, List.length_map] at heq
    rw [hT] at heq
    have hsum_lc : ((lc.map Event.duration_minutes).sum) = sum_duration lc := rfl
    rw [hsum_lc] at heq
    have hTne' : sum_duration lc ≠ 0 := by
      rw [hlc]
      exact hTne
    rw [div_eq_div_iff (ne_of_gt hDpos) (ne_of_gt hNpos)] at heq
    have : (lc.length : Rat) = (ds.length : Rat) :=
      mul_left_cancel₀ hTne' heq
    linarith

/-- A zero-duration Mamou activity of cycle 0. -/
def e7a : Event :=
  { time_started := some 500, time_ended := some 505, categories := "Mamou",
    duration_minutes := 0, cycle_date := some 0 }

/-- A second zero-duration Mamou activity of cycle 0. -/
def e7b : Event :=
  { time_started := some 600, time_ended := some 605, categories := "Mamou",
    duration_minutes := 0, cycle_date := some 0 }

/-- A Dormiu activity of cycle 1. -/
def e7c : Event :=
  { time_started := some 1840, time_ended := some 1890, categories := "Dormiu",
    duration_minutes := 30, cycle_date := some 1 }

/-- A two-cycle history: Mamou occurs twice in cycle 0, with zero duration,
and Dormiu only in cycle 1. -/
def hist7 : List Event := [e7a, e7b, e7c]

/-- Claim C7 fails on the code in two ways.  Mamou occurs twice in cycle 0,
yet its average row (0) equals the mean of its individual event durations
(0), refuting the unconditional "the two differ whenever a category occurs
more than once in some cycle".  And the Dormiu row is 30, the mean over only
the cycle dates on which Dormiu occurs, not the mean 15 over all cycle dates
of the history. -/
theorem C7_counterexample :
    avg_totals (daily_totals_history hist7) =
      [("Dormiu", (30 : Rat)), ("Mamou", (0 : Rat))] ∧
    2 ≤ (hist7.filter (fun e => e.categories == "Mamou" && e.cycle_date == some 0)).length ∧
    listMean ((hist7.filter (fun e => e.categories == "Mamou")).map Event.duration_minutes)
      = 0 ∧
    listMean ((cycleDates hist7).map (fun d => key_total hist7 (d, "Dormiu"))) = 15 ∧
    ((30 : Rat) ≠ (15 : Rat)) := by
  have hMD : ¬(("Mamou" : String) ≤ "Dormiu") := by
    rw [String.le_iff_toList_le]
    decide
  have hb1 : (("Mamou" : String) == "Dormiu") = false := by decide
  have hb2 : (("Dormiu" : String) == "Mamou") = false := by decide
  refine ⟨?_, by decide, ?_, ?_, by norm_num⟩
  · norm_num [avg_totals, daily_totals_history, sum_by_cycle_category, groupKeys, catKeys,
      key_total, listMean, sum_duration, hist7, e7a, e7b, e7c, hMD, hb1, hb2,
      List.insertionSort, List.orderedInsert]
  · norm_num [listMean, hist7, e7a, e7b, e7c, hb1, hb2]
  · norm_num [listMean, cycleDates, key_total, sum_duration, hist7, e7a, e7b, e7c, hb1, hb2,
      List.insertionSort, List.orderedInsert]

/-- Witness instantiating `C7_average_of_sums` at the Dormiu row of the
concrete history, discharging its row-membership hypothesis. -/
theorem C7_witness :
    ("Dormiu", (30 : Rat)) ∈ avg_totals (daily_totals_history hist7) ∧
    (∃ ds : List Int, ds ≠ [] ∧ ds.Nodup ∧
      (∀ d, d ∈ ds ↔ ∃ e, e ∈ hist7 ∧ e.categories = "Dormiu" ∧ e.cycle_date = some d) ∧
      (30 : Rat) = listMean (ds.map (fun d => key_total hist7 (d, "Dormiu"))) ∧
      ((∀ e, e ∈ hist7 → e.categories = "Dormiu" → e.cycle_date ≠ none) →
       (∃ d, 2 ≤ ((hist7.filter
           (fun e => e.categories == "Dormiu" && e.cycle_date == some d)).length)) →
       sum_duration (hist7.filter (fun e => e.categories == "Dormiu")) ≠ 0 →
       (30 : Rat) ≠ listMean ((hist7.filter
         (fun e => e.categories == "Dormiu")).map Event.duration_minutes))) := by
  have hMD : ¬(("Mamou" : String) ≤ "Dormiu") := by
    rw [String.le_iff_toList_le]
    decide
  have hb1 : (("Mamou" : String) == "Dormiu") = false := by decide
  have hb2 : (("Dormiu" : String) == "Mamou") = false := by decide
  have hrow : ("Dormiu", (30 : Rat)) ∈ avg_totals (daily_totals_history hist7) := by
    have heval : avg_totals (daily_totals_history hist7) =
        [("Dormiu", (30 : Rat)), ("Mamou", (0 : Rat))] := by
      norm_num [avg_totals, daily_totals_history, sum_by_cycle_category, groupKeys, catKeys,
        key_total, listMean, sum_duration, hist7, e7a, e7b, e7c, hMD, hb1, hb2,
        List.insertionSort, List.orderedInsert]
    rw [heval]
    simp
  exact ⟨hrow, C7_average_of_sums hist7 "Dormiu" 30 hrow⟩

/-- A fully parseable raw row. -/
def r8good : RawRecord :=
  { time_started := RawTime.valid 400, time_ended := RawTime.valid 450,
    categories := some "Dormiu", duration_minutes := some 50 }

/-- A raw row whose start timestamp `pd.to_datetime` cannot parse. -/
def r8bad : RawRecord :=
  { time_started := RawTime.unparseable, time_ended := RawTime.valid 500,
    categories := some "Mamou", duration_minutes := some 10 }

/-- A raw row whose start falls on a DST-ambiguous or nonexistent local
time (`tz_localize` turns it into `NaT`). -/
def r8amb : RawRecord :=
  { time_started := RawTime.dstAmbiguous, time_ended := RawTime.valid 500,
    categories := some "Dormiu", duration_minutes := some 50 }

/-- A raw row with a valid start but a DST-ambiguous or nonexistent end. -/
def r8ambEnd : RawRecord :=
  { time_started := RawTime.valid 400, time_ended := RawTime.dstAmbiguous,
    categories := some "Dormiu", duration_minutes := some 50 }

/-- The event `r8ambEnd` loads to: end `NaT`, but the cycle date of its
start (lines 40-46 derive `cycle_date` from `time_started` alone). -/
def ev8 : Event :=
  { time_started := some 400, time_ended := none, categories := "Dormiu",
    duration_minutes := 50, cycle_date := some 0 }

/-- Claim C8 fails on the code in two ways.  One unparseable timestamp
aborts the whole batch: `pd.to_datetime` (line 32, default
`errors='raise'`) raises outside the `try` block, which only wraps
`read_csv` (lines 23-27), so the valid first row is lost together with the
malformed second row.  And a record whose end (but not start) is
DST-ambiguous is not excluded from all computations: it keeps the cycle
date of its valid start and its full duration appears in the per-cycle
totals of line 72. -/
theorem C8_counterexample :
    load_and_preprocess_data [r8good, r8bad] = Except.error "MalformedTimestamp" ∧
    load_and_preprocess_data [r8ambEnd] = Except.ok [ev8] ∧
    ev8.cycle_date = some 0 ∧
    daily_totals_history [ev8] = [((0, "Dormiu"), (50 : Rat))] := by
  refine ⟨rfl, rfl, rfl, ?_⟩
  norm_num [daily_totals_history, sum_by_cycle_category, groupKeys, key_total,
    sum_duration, ev8, List.insertionSort, List.orderedInsert]

/-- Amended claim C8: a record with an unparseable start or end makes
`pd.to_datetime` raise and aborts the entire batch.  A record on a
DST-ambiguous or nonexistent local time is retained with that timestamp as
`NaT` and the batch continues: when the start is `NaT` the record's
`cycle_date` is `NaT` and it belongs to no cycle group; when only the end
is `NaT` the record keeps the cycle date of its start, its full
`duration_minutes` still counts in every per-cycle (cycle, category) sum
(lines 72 and 253), and only the end-before-cutoff filter of the
similarity computation (line 194) ignores it. -/
theorem C8_malformed_rows (rows : List RawRecord) :
    (rows.all (fun r => r.time_started.parseable && r.time_ended.parseable) = false →
      load_and_preprocess_data rows = Except.error "MalformedTimestamp") ∧
    (rows.all (fun r => r.time_started.parseable && r.time_ended.parseable) = true →
      load_and_preprocess_data rows = Except.ok (rows.filterMap processRow) ∧
      (∀ r ∈ rows, r.categories.isSome → (processRow r).isSome) ∧
      (∀ ev ∈ rows.filterMap processRow, ev.time_started = none → ev.cycle_date = none) ∧
      (∀ ev ∈ rows.filterMap processRow, ∀ t : Int, ev.time_started = some t →
        ev.cycle_date = some (cycle_date_code t)) ∧
      (∀ (l : List Event) (d : Int) (ev : Event), ev.cycle_date = none →
        ev ∉ l.filter (fun e => e.cycle_date == some d)) ∧
      (∀ (l : List Event) (ev : Event) (d : Int) (c : String), ev.cycle_date = some d →
        ev.categories = c → key_total (ev :: l) (d, c) =
          ev.duration_minutes + key_total l (d, c)) ∧
      (∀ (l : List Event) (ct : Rat) (ev : Event), ev.time_ended = none →
        (ev :: l).filter (fun e =>
            match e.time_ended with
            | some te => decide ((te : Rat) < ct)
            | none => false) =
          l.filter (fun e =>
            match e.time_ended with
            | some te => decide ((te : Rat) < ct)
            | none => false))) := by
  constructor
  · intro hfail
    unfold load_and_preprocess_data
    rw [hfail]
    rfl
  · intro hok
    refine ⟨by unfold load_and_preprocess_data; rw [hok]; rfl, ?_, ?_, ?_, ?_, ?_, ?_⟩
    · intro r _ hcat
      unfold processRow
      cases hc : r.categories with
      | none => rw [hc] at hcat; cases hcat
      | some c => simp
    · intro ev hev hts
      rw [List.mem_filterMap] at hev
      obtain ⟨r, _, hpr⟩ := hev
      unfold processRow at hpr
      cases hc : r.categories with
      | none => rw [hc] at hpr; cases hpr
      | some c =>
        rw [hc] at hpr
        simp only [Option.some.injEq] at hpr
        subst hpr
        simp only at hts
        simp [hts]
    · intro ev hev t hts
      rw [List.mem_filterMap] at hev
      obtain ⟨r, _, hpr⟩ := hev
      unfold processRow at hpr
      cases hc : r.categories with
      | none => rw [hc] at hpr; cases hpr
      | some c =>
        rw [hc] at hpr
        simp only [Option.some.injEq] at hpr
        subst hpr
        simp only at hts
        simp [hts]
    · intro l d ev hnone hmem
      rw [List.mem_filter] at hmem
      rw [hnone] at hmem
      cases hmem.2
    · intro l ev d c hcd hcat
      unfold key_total
      rw [List.filter_cons]
      simp [hcd, hcat, sum_duration]
    · intro l ct ev hend
      rw [List.filter_cons]
      rw [hend]
      rfl

/-- Witness instantiating `C8_malformed_rows` on a batch of one
start-ambiguous row, one end-ambiguous row and one valid row, discharging
the all-parseable hypothesis; the extra first conjunct shows the processed
batch concretely: the start-ambiguous row is retained with a null cycle
date, the end-ambiguous row keeps the cycle date of its start, and the
valid row is processed normally. -/
theorem C8_witness :
    [r8amb, r8ambEnd, r8good].filterMap processRow =
      [{ time_started := none, time_ended := some 500, categories := "Dormiu",
         duration_minutes := 50, cycle_date := none },
       { time_started := some 400, time_ended := none, categories := "Dormiu",
         duration_minutes := 50, cycle_date := some 0 },
       { time_started := some 400, time_ended := some 450, categories := "Dormiu",
         duration_minutes := 50, cycle_date := some 0 }] ∧
    (load_and_preprocess_data [r8amb, r8ambEnd, r8good] =
        Except.ok ([r8amb, r8ambEnd, r8good].filterMap processRow) ∧
      (∀ r ∈ [r8amb, r8ambEnd, r8good], r.categories.isSome → (processRow r).isSome) ∧
      (∀ ev ∈ [r8amb, r8ambEnd, r8good].filterMap processRow,
        ev.time_started = none → ev.cycle_date = none) ∧
      (∀ ev ∈ [r8amb, r8ambEnd, r8good].filterMap processRow, ∀ t : Int,
        ev.time_started = some t → ev.cycle_date = some (cycle_date_code t)) ∧
      (∀ (l : List Event) (d : Int) (ev : Event), ev.cycle_date = none →
        ev ∉ l.filter (fun e => e.cycle_date == some d)) ∧
      (∀ (l : List Event) (ev : Event) (d : Int) (c : String), ev.cycle_date = some d →
        ev.categories = c → key_total (ev :: l) (d, c) =
          ev.duration_minutes + key_total l (d, c)) ∧
      (∀ (l : List Event) (ct : Rat) (ev : Event), ev.time_ended = none →
        (ev :: l).filter (fun e =>
            match e.time_ended with
            | some te => decide ((te : Rat) < ct)
            | none => false) =
          l.filter (fun e =>
            match e.time_ended with
            | some te => decide ((te : Rat) < ct)
            | none => false))) :=
  ⟨by decide, (C8_malformed_rows [r8amb, r8ambEnd, r8good]).2 (by decide)⟩

/-- Modelled from the spec (§4.3 EventSegmenter), a component the
repository source does not implement: the first bucket boundary strictly
after `t` for bucket width `W` and bucket offset `o` (hour buckets are
`W = 60, o = 0`; cycle-day buckets are `W = 1440, o = 360`, the 06:00
boundary).  A position already on a boundary advances one full bucket. -/
def nextBoundary (W o t : Int) : Int := o + W * ((t - o).ediv W + 1)

/-- Modelled from the spec (§4.3): walk forward from the start, cutting at
`min (next boundary) (event end)` and advancing, until the end is reached.
The fuel argument bounds the walk; `segment` supplies fuel `e - t`, which
suffices because every step advances by at least one minute. -/
def segmentsAux (W o : Int) : Nat → Int → Int → List (Int × Int)
  | 0, _, _ => []
  | fuel + 1, t, e =>
    if t < e then
      (t, min (nextBoundary W o t) e) ::
        segmentsAux W o fuel (min (nextBoundary W o t) e) e
    else []

/-- Modelled from the spec (§4.3): `segment(event, bucket_width)` — the
ordered sub-segments of `[t, e)` cut at every bucket boundary.  A
zero-length event produces no segments. -/
def segment (W o t e : Int) : List (Int × Int) := segmentsAux W o (e - t).toNat t e

/-- The next boundary lies strictly after the current position. -/
theorem lt_nextBoundary (W o t : Int) (hW : 0 < W) : t < nextBoundary W o t := by
  have hmod : (t - o).emod W < W := Int.emod_lt_of_pos (t - o) hW
  have hdiv : W * ((t - o).ediv W) + (t - o).emod W = t - o := Int.ediv_add_emod (t - o) W
  unfold nextBoundary
  have : W * ((t - o).ediv W + 1) = W * ((t - o).ediv W) + W := by ring
  omega

/-- Conservation along the walk, given enough fuel. -/
theorem segmentsAux_sum (W o : Int) (hW : 0 < W) :
    ∀ (fuel : Nat) (t e : Int), t ≤ e → (e - t).toNat ≤ fuel →
      ((segmentsAux W o fuel t e).map (fun p => p.2 - p.1)).sum = e - t := by
  intro fuel
  induction fuel with
  | zero =>
    intro t e hte hfuel
    simp only [segmentsAux, List.map_nil, List.sum_nil]
    omega
  | succ fuel ih =>
    intro t e hte hfuel
    by_cases hlt : t < e
    · have hb : t < nextBoundary W o t := lt_nextBoundary W o t hW
      have hs : t < min (nextBoundary W o t) e := lt_min hb hlt
      have hs_le : min (nextBoundary W o t) e ≤ e := min_le_right _ _
      have htail := ih (min (nextBoundary W o t) e) e hs_le (by omega)
      simp only [segmentsAux, if_pos hlt, List.map_cons, List.sum_cons, htail]
      omega
    · have heq : e = t := le_antisymm (not_lt.mp hlt) hte
      simp only [segmentsAux, if_neg hlt, List.map_nil, List.sum_nil]
      omega

/-- Every emitted segment is non-degenerate and ends no later than the
boundary following its own start: it stays inside one bucket. -/
theorem segmentsAux_in_bucket (W o : Int) (hW : 0 < W) :
    ∀ (fuel : Nat) (t e : Int), ∀ p ∈ segmentsAux W o fuel t e,
      p.1 < p.2 ∧ p.2 ≤ nextBoundary W o p.1 := by
  intro fuel
  induction fuel with
  | zero => intro t e p hp; cases hp
  | succ fuel ih =>
    intro t e p hp
    by_cases hlt : t < e
    · rw [segmentsAux, if_pos hlt, List.mem_cons] at hp
      rcases hp with rfl | hp
      · exact ⟨lt_min (lt_nextBoundary W o t hW) hlt, min_le_left _ _⟩
      · exact ih _ _ p hp
    · rw [segmentsAux, if_neg hlt] at hp
      cases hp

/-- Claim C9 (spec-modelled, the repository has no segmentation code): for
every event interval with `end >= start` and every positive bucket width
and offset — hour buckets and cycle-day buckets included — the segment
durations sum exactly to the event duration, every segment is non-empty and
never crosses the boundary after its start (it lies in one bucket), and a
zero-length event yields no segments. -/
theorem C9_segment_conservation (W o t e : Int) (hW : 0 < W) (hte : t ≤ e) :
    ((segment W o t e).map (fun p => p.2 - p.1)).sum = e - t ∧
    (∀ p ∈ segment W o t e, p.1 < p.2 ∧ p.2 ≤ nextBoundary W o p.1) ∧
    (t = e → segment W o t e = []) := by
  refine ⟨segmentsAux_sum W o hW ((e - t).toNat) t e hte le_rfl,
    fun p hp => segmentsAux_in_bucket W o hW ((e - t).toNat) t e p hp, ?_⟩
  intro heq
  subst heq
  unfold segment
  simp [segmentsAux]

/-- Witness instantiating `C9_segment_conservation` for an hour-width
segmentation of the interval 00:30-02:30 and a cycle-day segmentation of an
interval crossing the 06:00 boundary. -/
theorem C9_witness :
    segment 60 0 30 150 = [(30, 60), (60, 120), (120, 150)] ∧
    ((segment 60 0 30 150).map (fun p => p.2 - p.1)).sum = 150 - 30 ∧
    segment 1440 360 300 400 = [(300, 360), (360, 400)] ∧
    ((segment 1440 360 300 400).map (fun p => p.2 - p.1)).sum = 400 - 300 ∧
    (∀ p ∈ segment 1440 360 300 400, p.1 < p.2 ∧ p.2 ≤ nextBoundary 1440 360 p.1) :=
  ⟨by decide, (C9_segment_conservation 60 0 30 150 (by decide) (by decide)).1, by decide,
    (C9_segment_conservation 1440 360 300 400 (by decide) (by decide)).1,
    (C9_segment_conservation 1440 360 300 400 (by decide) (by decide)).2.1⟩

/-- Claim C10: a record whose `duration_minutes` is missing or not numeric
is kept — `pd.to_numeric(..., errors='coerce').fillna(0)` (line 34) turns
the value into 0 — so, provided it has a category, it yields an event with
`duration_minutes = 0` that adds exactly zero to every duration sum instead
of being dropped from the batch. -/
theorem C10_coerced_duration (rows : List RawRecord) (r : RawRecord) (evs : List Event)
    (h : load_and_preprocess_data rows = Except.ok evs) (hr : r ∈ rows)
    (hdur : r.duration_minutes = none) (c : String) (hc : r.categories = some c) :
    ∃ ev, ev ∈ evs ∧ ev.categories = c ∧ ev.duration_minutes = 0 ∧
      (∀ l : List Event, sum_duration (ev :: l) = sum_duration l) := by
  unfold load_and_preprocess_data at h
  by_cases hall : rows.all (fun r => r.time_started.parseable && r.time_ended.parseable) = true
  · rw [if_pos hall] at h
    injection h with h
    subst h
    refine ⟨{ time_started := r.time_started.localize, time_ended := r.time_ended.localize,
              categories := c, duration_minutes := 0,
              cycle_date := r.time_started.localize.map cycle_date_code }, ?_, rfl, rfl, ?_⟩
    · refine List.mem_filterMap.mpr ⟨r, hr, ?_⟩
      unfold processRow
      rw [hc, hdur]
      rfl
    · intro l
      simp [sum_duration]
  · rw [if_neg hall] at h
    cases h

/-- A raw row with valid timestamps and category but no parseable
duration. -/
def r10 : RawRecord :=
  { time_started := RawTime.valid 400, time_ended := RawTime.valid 450,
    categories := some "Dormiu", duration_minutes := none }

/-- The event `r10` loads to: retained, with duration coerced to 0. -/
def ev10 : Event :=
  { time_started := some 400, time_ended := some 450, categories := "Dormiu",
    duration_minutes := 0, cycle_date := some 0 }

/-- Witness instantiating `C10_coerced_duration` on a one-row batch whose
duration cell is unparseable. -/
theorem C10_witness :
    load_and_preprocess_data [r10] = Except.ok [ev10] ∧
    (∃ ev, ev ∈ [ev10] ∧ ev.categories = "Dormiu" ∧ ev.duration_minutes = 0 ∧
      (∀ l : List Event, sum_duration (ev :: l) = sum_duration l)) := by
  have hok : load_and_preprocess_data [r10] = Except.ok [ev10] := rfl
  exact ⟨hok, C10_coerced_duration [r10] r10 [ev10] hok
    (List.mem_singleton.mpr rfl) rfl "Dormiu" rfl⟩

/-- The claimed cycle assignment fails on the code: `tz_convert(None)`
yields UTC wall time (local + 3h), so an event starting at local 05:59
(minute 359 of its day; the day number stands for 2024-01-10) keeps its own
date as `cycle_date` instead of the previous date, an event at local 06:00
also keeps it, and an event at local 21:00 is pushed to the previous date.
`assign_cycle` is the behaviour the claim (and the comment on line 42)
describes. -/
theorem C1_cycle_boundary_eval :
    load_and_preprocess_data
        [{ time_started := RawTime.valid 359, time_ended := RawTime.valid 500,
           categories := some "Dormiu", duration_minutes := some 30 }] =
      Except.ok
        [{ time_started := some 359, time_ended := some 500,
           categories := "Dormiu", duration_minutes := 30, cycle_date := some 0 }] ∧
    assign_cycle 359 6 = -1 ∧
    cycle_date_code 360 = 0 ∧ assign_cycle 360 6 = 0 ∧
    cycle_date_code (21 * 60) = -1 ∧ assign_cycle (21 * 60) 6 = 0 :=
  ⟨rfl, by decide⟩

end NinaTracker
